import Mathlib

/- Verification of the prompt-sync reconciliation engine.

The Rust sources (engine.rs, safe_fs.rs, logging.rs, model.rs, app.rs,
pathing.rs) are shallowly embedded.  The on-disk state is a finite
association of paths to inode numbers plus a table of inode payloads;
hardlink identity is shared inode numbers, the link count of an inode is
the number of directory entries pointing at it, exactly the unix data the
code reads through symlink_metadata / MetadataExt.  Fallible OS calls are
total functions into Except; environmental failures the code can hit
(metadata unreadable, file unreadable for hashing, disk space, log write
failures) are explicit fields of the state. -/

namespace PromptSync

abbrev Path := String

/- ---------------------------------------------------------------- -/
/- String and path helpers (Rust std::path behaviour, executable).   -/
/- ---------------------------------------------------------------- -/

def splitCharAux (c : Char) : List Char → List Char → List (List Char)
  | [], acc => [acc.reverse]
  | x :: xs, acc =>
      if x = c then acc.reverse :: splitCharAux c xs []
      else splitCharAux c xs (x :: acc)

def splitPath (p : Path) : List String :=
  (splitCharAux '/' p.toList []).map String.mk

def joinWith (sep : String) : List String → String
  | [] => ""
  | [x] => x
  | x :: y :: rest => x ++ sep ++ joinWith sep (y :: rest)

/-- Rust Path::parent: the path with its last component removed; none when
there is a single component. -/
def parentPath (p : Path) : Option Path :=
  let parts := splitPath p
  if parts.length ≤ 1 then none else some (joinWith "/" parts.dropLast)

/-- Rust Path::file_name rendered as a string: the last component. -/
def fileNameOf (p : Path) : String :=
  ((splitPath p).getLast?).getD ""

/-- Rust Path::extension: the part of the file name after the last dot;
none when there is no dot or when the name is a lone dotfile. -/
def extensionOf (p : Path) : Option String :=
  let parts := (splitCharAux '.' (fileNameOf p).toList []).map String.mk
  match parts with
  | [] => none
  | [_] => none
  | first :: rest =>
      if first == "" && rest.length == 1 then none else rest.getLast?

def dropRightStr (s : String) (n : Nat) : String :=
  String.mk (s.toList.take (s.toList.length - n))

/-- Rust Path::with_extension: replace the extension (or append one). -/
def withExtension (p : Path) (newExt : String) : Path :=
  let base :=
    match extensionOf p with
    | some e => dropRightStr p (e.length + 1)
    | none => p
  base ++ "." ++ newExt

/-- The ancestor directories of a path, shortest first, the path itself
last; empty components (leading slash) are dropped. -/
def dirChain (p : Path) : List Path :=
  (((List.range (splitPath p).length).map
      (fun k => joinWith "/" ((splitPath p).take (k + 1)))).filter
    (fun q => q != ""))

/- ---------------------------------------------------------------- -/
/- Filesystem state.                                                 -/
/- ---------------------------------------------------------------- -/

inductive FileType
  | regular
  | dir
  | symlink
  | other
deriving DecidableEq

structure InodeData where
  ftype : FileType
  dev : Nat
  content : List Nat
  mtime : Nat
deriving DecidableEq

structure FS where
  entries : List (Path × Nat)
  inodes : List (Nat × InodeData)
  unreadable : List Path
  readFails : List Path
  avail : Nat
  clock : Nat
deriving DecidableEq

structure Metadata where
  ftype : FileType
  dev : Nat
  ino : Nat
  nlink : Nat
  len : Nat
deriving DecidableEq

inductive MetaErr
  | notFound
  | other (msg : String)
deriving DecidableEq

def lookupIno (fs : FS) (p : Path) : Option Nat :=
  (fs.entries.find? (fun e => e.fst == p)).map (fun e => e.snd)

def getInode (fs : FS) (i : Nat) : Option InodeData :=
  (fs.inodes.find? (fun e => e.fst == i)).map (fun e => e.snd)

def nlinkOf (fs : FS) (i : Nat) : Nat :=
  (fs.entries.filter (fun e => e.snd == i)).length

/-- fs::symlink_metadata: link-aware metadata, never following the final
component. -/
def symlink_metadata (fs : FS) (p : Path) : Except MetaErr Metadata :=
  if fs.unreadable.contains p then .error (.other ("metadata error " ++ p))
  else
    match lookupIno fs p with
    | none => .error .notFound
    | some i =>
      match getInode fs i with
      | none => .error (.other ("metadata error " ++ p))
      | some d => .ok ⟨d.ftype, d.dev, i, nlinkOf fs i, d.content.length⟩

/-- pathing.rs same_file (unix): equal inode and equal device. -/
def same_file (a b : Metadata) : Bool :=
  a.ino == b.ino && a.dev == b.dev

/-- pathing.rs hardlink_count (unix): the nlink field. -/
def hardlink_count (m : Metadata) : Nat := m.nlink

def readFileContent (fs : FS) (p : Path) : Option (List Nat) :=
  ((lookupIno fs p).bind (getInode fs)).map (fun d => d.content)

/- ---------------------------------------------------------------- -/
/- Data model (model.rs).                                            -/
/- ---------------------------------------------------------------- -/

inductive MappingKind
  | configFile
  | skillFile
deriving DecidableEq

structure Mapping where
  kind : MappingKind
  source : Path
  target : Path
deriving DecidableEq

inductive Status
  | ok
  | missing
  | broken
  | conflict
  | created
  | replaced
  | wouldCreate
  | wouldReplace
  | skipped
  | error
deriving DecidableEq

structure Record where
  kind : MappingKind
  source : Path
  target : Path
  status : Status
  message : Option String
deriving DecidableEq

def base_record (m : Mapping) : Record :=
  { kind := m.kind, source := m.source, target := m.target,
    status := .error, message := none }

/- ---------------------------------------------------------------- -/
/- Status classifier (engine.rs inspect_mapping).                    -/
/- ---------------------------------------------------------------- -/

def inspect_mapping (fs : FS) (m : Mapping) : Record :=
  match symlink_metadata fs m.source with
  | .error _ =>
      { base_record m with
        status := .error,
        message := some ("source metadata error " ++ m.source) }
  | .ok sourceMeta =>
    match symlink_metadata fs m.target with
    | .error .notFound =>
        { base_record m with
          status := .missing,
          message := some "target missing" }
    | .error (.other msg) =>
        { base_record m with status := .error, message := some msg }
    | .ok targetMeta =>
      if !(sourceMeta.ftype == FileType.regular) then
        { base_record m with
          status := .error,
          message := some "source is not a regular file" }
      else if !(targetMeta.ftype == FileType.regular) then
        { base_record m with
          status := .conflict,
          message := some "target exists but is not a regular file" }
      else if same_file sourceMeta targetMeta then
        { base_record m with
          status := .ok,
          message := some "inode match" }
      else if 1 < hardlink_count targetMeta then
        { base_record m with
          status := .broken,
          message := some "target is hardlinked to a different source" }
      else
        { base_record m with
          status := .conflict,
          message := some "target differs and is not linked" }

/-- Modelled from the claim text of the specification, section 4.1: the
eight classification rules in priority order, first match wins.  To be
compared against inspect_mapping, which is transcribed from the code. -/
def classifySpec (fs : FS) (m : Mapping) : Status :=
  match symlink_metadata fs m.source with
  | .error _ => .error
  | .ok sm =>
    match symlink_metadata fs m.target with
    | .error .notFound => .missing
    | .error (.other _) => .error
    | .ok tm =>
      if sm.ftype ≠ FileType.regular then .error
      else if tm.ftype ≠ FileType.regular then .conflict
      else if sm.dev = tm.dev ∧ sm.ino = tm.ino then .ok
      else if 1 < tm.nlink then .broken
      else .conflict

/- ---------------------------------------------------------------- -/
/- Filesystem safety layer (safe_fs.rs).                             -/
/- ---------------------------------------------------------------- -/

def freshIno (fs : FS) : Nat :=
  (fs.inodes.map Prod.fst).foldl max 0 + 1

def mkDirAt (fs : FS) (q : Path) (dev : Nat) : FS :=
  let i := freshIno fs
  { fs with
    entries := fs.entries ++ [(q, i)],
    inodes := fs.inodes ++ [(i, ⟨FileType.dir, dev, [], fs.clock⟩)] }

/-- fs::create_dir_all over the chain of ancestor directories: an existing
component must be a directory, a missing one is created on the device of
its parent. -/
def createDirAllGo (fs : FS) (dev : Nat) : List Path → Except String FS
  | [] => .ok fs
  | q :: rest =>
    match lookupIno fs q with
    | some i =>
      match getInode fs i with
      | some d =>
          if d.ftype == FileType.dir then createDirAllGo fs d.dev rest
          else .error ("failed to create parent directories " ++ q)
      | none => .error ("failed to create parent directories " ++ q)
    | none => createDirAllGo (mkDirAt fs q dev) dev rest

/-- safe_fs.rs ensure_parent_dir: create the parent directory chain of a
path, succeeding when the path has no parent. -/
def ensure_parent_dir (fs : FS) (p : Path) : Except String FS :=
  match parentPath p with
  | none => .ok fs
  | some parent => createDirAllGo fs 0 (dirChain parent)

/-- safe_fs.rs check_same_filesystem (unix): the source and the target
parent directory must live on the same device. -/
def check_same_filesystem (fs : FS) (sourceMeta : Metadata) (target : Path) :
    Except String Unit :=
  let targetParent := (parentPath target).getD "."
  match symlink_metadata fs targetParent with
  | .error _ =>
      .error ("failed to inspect target parent directory " ++ targetParent)
  | .ok pm =>
      if sourceMeta.dev == pm.dev then .ok ()
      else .error "hardlink across filesystems is not supported"

/-- safe_fs.rs create_hard_link_checked: re-verify the source is a regular
file, check devices, then add a directory entry for the target sharing the
source inode; fs::hard_link fails when the target already exists. -/
def create_hard_link_checked (fs : FS) (source target : Path) :
    Except String FS :=
  match symlink_metadata fs source with
  | .error _ => .error ("failed to inspect source " ++ source)
  | .ok sm =>
    if sm.ftype == FileType.regular then
      match check_same_filesystem fs sm target with
      | .error e => .error e
      | .ok _ =>
        if (lookupIno fs target).isSome || fs.unreadable.contains target then
          .error ("failed to create hardlink " ++ target ++ " from " ++ source)
        else .ok { fs with entries := fs.entries ++ [(target, sm.ino)] }
    else .error ("source is not a regular file: " ++ source)

/-- Model of the SHA-256 digest: an injective rendering of the content
bytes (the digest itself is computed by the external sha2 crate). -/
def sha256Hex (bytes : List Nat) : String :=
  "sha256-" ++ joinWith "-" (bytes.map toString)

/-- safe_fs.rs calculate_sha256: open and read the file, hash its bytes. -/
def calculate_sha256 (fs : FS) (p : Path) : Except String String :=
  if fs.readFails.contains p then
    .error ("failed to open file for hashing " ++ p)
  else
    match (lookupIno fs p).bind (getInode fs) with
    | none => .error ("failed to open file for hashing " ++ p)
    | some d =>
        if d.ftype == FileType.regular then .ok (sha256Hex d.content)
        else .error ("failed to read file for hashing " ++ p)

/-- safe_fs.rs check_disk_space: the backup filesystem must have at least
the required bytes available. -/
def check_disk_space (fs : FS) (required : Nat) : Except String Unit :=
  if fs.avail < required then .error "insufficient disk space"
  else .ok ()

/-- safe_fs.rs build_backup_path: timestamp prefix plus original file
name inside the backup root. -/
def build_backup_path (backupRoot : Path) (target : Path) (ts : Nat) : Path :=
  let name := if fileNameOf target == "" then "target" else fileNameOf target
  backupRoot ++ "/" ++ toString ts ++ "-" ++ name

structure BackupOutcome where
  backup_path : Option Path
deriving DecidableEq

def setContent (fs : FS) (i : Nat) (content : List Nat) : FS :=
  { fs with
    inodes := fs.inodes.map
      (fun e =>
        if e.fst == i then (e.fst, { e.snd with content := content, mtime := fs.clock })
        else e) }

def dirDevOf (fs : FS) (p : Path) : Option Nat :=
  ((lookupIno fs p).bind (getInode fs)).map (fun d => d.dev)

/-- fs::write: truncate an existing file in place, else create a fresh
inode on the device of the parent directory. -/
def writeFile (fs : FS) (p : Path) (content : List Nat) : FS :=
  match lookupIno fs p with
  | some i => setContent fs i content
  | none =>
    let i := freshIno fs
    let dev := ((parentPath p).bind (dirDevOf fs)).getD 0
    { fs with
      entries := fs.entries ++ [(p, i)],
      inodes := fs.inodes ++ [(i, ⟨FileType.regular, dev, content, fs.clock⟩)] }

/-- safe_fs.rs save_hash_metadata: write the sidecar key=value file next
to the backup (write failures are swallowed by the caller). -/
def save_hash_metadata (fs : FS) (backupPath : Path) (hash : String)
    (fileSize : Nat) : FS :=
  let extText := (extensionOf backupPath).getD ""
  let hashPath := withExtension backupPath (extText ++ ".sha256")
  writeFile fs hashPath
    ((("algorithm=sha256\nhash=" ++ hash ++ "\nsize=" ++ toString fileSize
      ++ "\ntimestamp=" ++ toString fs.clock ++ "\n").toList).map Char.toNat)

/-- The sidecar path cleanup_old_backups derives for a backup file:
with_extension of the original extension plus ".sha256". -/
def sidecarOf (p : Path) : Path :=
  withExtension p (((extensionOf p).getD "") ++ ".sha256")

def insertByMtime (x : Path × Nat) : List (Path × Nat) → List (Path × Nat)
  | [] => [x]
  | y :: ys => if x.snd < y.snd then x :: y :: ys else y :: insertByMtime x ys

/-- Stable sort by modification time, oldest first (Rust sort_by). -/
def sortByMtime : List (Path × Nat) → List (Path × Nat)
  | [] => []
  | x :: xs => insertByMtime x (sortByMtime xs)

/-- The decision core of safe_fs.rs cleanup_old_backups: among the files
of the backup directory (path with modification time), the files it
deletes — only files whose extension is "bak" are considered, and when
they exceed the maximum the oldest are removed together with their
".sha256" sidecars. -/
def backupFilesToRemove (files : List (Path × Nat)) (maxVersions : Nat) :
    List Path :=
  let backupFiles := files.filter (fun f => extensionOf f.fst == some "bak")
  if maxVersions < backupFiles.length then
    let sorted := sortByMtime backupFiles
    let toRemove := sorted.take (backupFiles.length - maxVersions)
    toRemove.foldr (fun f acc => f.fst :: sidecarOf f.fst :: acc) []
  else []

/-- The files directly inside a directory, with their modification times;
entries whose metadata cannot be read are skipped, as in the code. -/
def readDirFiles (fs : FS) (dir : Path) : List (Path × Nat) :=
  fs.entries.filterMap
    (fun e =>
      if (parentPath e.fst == some dir) && !(fs.unreadable.contains e.fst) then
        (getInode fs e.snd).map (fun d => (e.fst, d.mtime))
      else none)

def removeEntryAll (fs : FS) (p : Path) : FS :=
  { fs with entries := fs.entries.filter (fun e => e.fst != p) }

/-- safe_fs.rs cleanup_old_backups: best-effort removal of the doomed
backup files and sidecars. -/
def cleanup_old_backups (fs : FS) (backupDir : Path) (maxVersions : Nat) : FS :=
  (backupFilesToRemove (readDirFiles fs backupDir) maxVersions).foldl
    removeEntryAll fs

/-- safe_fs.rs finalize_backup: hash the moved backup, write the sidecar
(best effort), prune old backups (best effort, maximum 100 versions). -/
def finalize_backup (fs : FS) (backupRoot backupPath : Path) (fileSize : Nat) :
    Except String (BackupOutcome × FS) :=
  let fs1 :=
    match calculate_sha256 fs backupPath with
    | .ok hash => save_hash_metadata fs backupPath hash fileSize
    | .error _ => fs
  .ok (⟨some backupPath⟩, cleanup_old_backups fs1 backupRoot 100)

/-- fs::rename: move a directory entry; fails across devices. -/
def renameSameDev (fs : FS) (src dst dstDir : Path) : Except String FS :=
  match (lookupIno fs src).bind (getInode fs) with
  | none => .error ("rename failed " ++ src)
  | some d =>
    match dirDevOf fs dstDir with
    | none => .error ("rename failed " ++ dst)
    | some dev =>
      if d.dev == dev then
        .ok { fs with
              entries := (fs.entries.filter (fun e => e.fst != dst)).map
                (fun e => if e.fst == src then (dst, e.snd) else e) }
      else .error ("cross-device rename " ++ src)

/-- fs::copy: read the source bytes into a fresh inode at the target. -/
def copyFile (fs : FS) (src dst dstDir : Path) : Except String FS :=
  if fs.readFails.contains src then
    .error ("failed to copy target to backup " ++ dst)
  else
    match (lookupIno fs src).bind (getInode fs) with
    | none => .error ("failed to copy target to backup " ++ dst)
    | some d =>
      let dev := (dirDevOf fs dstDir).getD 0
      let i := freshIno fs
      .ok { fs with
            entries := (fs.entries.filter (fun e => e.fst != dst)) ++ [(dst, i)],
            inodes := fs.inodes ++ [(i, ⟨FileType.regular, dev, d.content, fs.clock⟩)] }

def removeFileStrict (fs : FS) (p : Path) : Except String FS :=
  match lookupIno fs p with
  | none => .error ("failed to remove existing target " ++ p)
  | some _ => .ok (removeEntryAll fs p)

/-- safe_fs.rs backup_target_file: disk-space preflight, create the backup
directory, move (or on cross-device failure copy then delete) the target
into the backup directory, then finalize. -/
def backup_target_file (fs : FS) (target backupRoot : Path) (fileSize : Nat) :
    Except String (BackupOutcome × FS) :=
  match check_disk_space fs fileSize with
  | .error e => .error e
  | .ok _ =>
    match createDirAllGo fs 0 (dirChain backupRoot) with
    | .error _ => .error ("failed to create backup directory " ++ backupRoot)
    | .ok fs1 =>
      let backupPath := build_backup_path backupRoot target fs.clock
      match renameSameDev fs1 target backupPath backupRoot with
      | .ok fs2 => finalize_backup fs2 backupRoot backupPath fileSize
      | .error _ =>
        match copyFile fs1 target backupPath backupRoot with
        | .error e => .error e
        | .ok fs2 =>
          match removeFileStrict fs2 target with
          | .error e => .error e
          | .ok fs3 => finalize_backup fs3 backupRoot backupPath fileSize

/-- safe_fs.rs remove_existing_target_file: refuse directories; with a
backup directory displace the target into it, otherwise delete it; a
missing target is fine. -/
def remove_existing_target_file (fs : FS) (target : Path)
    (backupDir : Option Path) : Except String (BackupOutcome × FS) :=
  match symlink_metadata fs target with
  | .ok meta =>
    if meta.ftype == FileType.dir then
      .error ("target is a directory; refusing to replace: " ++ target)
    else
      match backupDir with
      | some backupRoot => backup_target_file fs target backupRoot meta.len
      | none =>
        match removeFileStrict fs target with
        | .error e => .error e
        | .ok fs1 => .ok (⟨none⟩, fs1)
  | .error .notFound => .ok (⟨none⟩, fs)
  | .error (.other _) =>
      .error ("failed to inspect existing target " ++ target)

/- ---------------------------------------------------------------- -/
/- Operation log (logging.rs).                                       -/
/- ---------------------------------------------------------------- -/

/-- The arguments of one logger.record call (logging.rs LogEntry). -/
structure LogArgs where
  action : String
  source : Path
  target : Path
  status : String
  error : Option String
  hash_before : Option String
  backup_location : Option Path
deriving DecidableEq

/-- One stored journal object: the record arguments plus the timestamp
taken at append time. -/
structure LogEntryData where
  timestamp : Nat
  action : String
  source : Path
  target : Path
  status : String
  error : Option String
  hash_before : Option String
  backup_location : Option Path
deriving DecidableEq

def storedEntry (clock : Nat) (a : LogArgs) : LogEntryData :=
  ⟨clock, a.action, a.source, a.target, a.status, a.error, a.hash_before,
   a.backup_location⟩

/-- The state of the log file: absent, present but unreadable or not a
valid JSON array (with its byte size), or a valid array of entries. -/
inductive LogFile
  | absent
  | corrupt (size : Nat)
  | valid (entries : List LogEntryData)
deriving DecidableEq

def entryByteSize (e : LogEntryData) : Nat :=
  e.source.length + e.target.length + e.status.length + 80

/-- Model of the serialized size of a valid log array. -/
def logSize (es : List LogEntryData) : Nat :=
  (es.map entryByteSize).sum + 2

def logSizeLimit : Nat := 1024 * 1024

def logSizeOf : LogFile → Option Nat
  | .absent => none
  | .corrupt sz => some sz
  | .valid es => some (logSize es)

/-- The state of the operation log in the backup directory, with the
environment knobs for the failure modes of its file operations. -/
structure LogState where
  logFile : LogFile
  rotatedExists : Bool
  removeFails : Bool
  renameFails : Bool
  writeFails : Bool
deriving DecidableEq

def rotate_rename (ls : LogState) : LogState × Bool :=
  if ls.logFile == LogFile.absent then (ls, true)
  else if ls.renameFails then (ls, false)
  else ({ ls with logFile := .absent, rotatedExists := true }, true)

/-- logging.rs rotate_log: delete any previous rotated file, then rename
the current log to the rotated name. -/
def rotate_log (ls : LogState) : LogState × Bool :=
  if ls.rotatedExists then
    if ls.removeFails then (ls, false)
    else rotate_rename { ls with rotatedExists := false }
  else rotate_rename ls

/-- logging.rs OperationLog::record: rotate when over the size limit, read
the current array falling back to an empty one when the file is missing,
unreadable or not valid JSON, append the entry, write the whole array
back.  Returns the new state and whether the call succeeded. -/
def OperationLog.record (ls : LogState) (clock : Nat) (args : LogArgs) :
    LogState × Bool :=
  let step1 :=
    match logSizeOf ls.logFile with
    | some sz => if logSizeLimit < sz then rotate_log ls else (ls, true)
    | none => (ls, true)
  match step1 with
  | (ls1, false) => (ls1, false)
  | (ls1, true) =>
    let contents :=
      match ls1.logFile with
      | .valid es => es
      | _ => []
    if ls1.writeFails then (ls1, false)
    else ({ ls1 with logFile := .valid (contents ++ [storedEntry clock args]) },
          true)

/- ---------------------------------------------------------------- -/
/- Reconciliation engine (engine.rs actions).                        -/
/- ---------------------------------------------------------------- -/

/-- The outcome of one engine action: the record, the filesystem and log
state after it, and the trace of the logger.record calls it attempted. -/
structure ActionResult where
  record : Record
  fs : FS
  log : LogState
  logCalls : List LogArgs
deriving DecidableEq

def failRec (m : Mapping) (e : String) : Record :=
  { base_record m with status := .error, message := some e }

def mkReplaceArgs (m : Mapping) (status : String) (err : Option String)
    (hashBefore : Option String) (backupLoc : Option Path) : LogArgs :=
  ⟨"replace", m.source, m.target, status, err, hashBefore, backupLoc⟩

/-- engine.rs: the `if let Some(backup_root) = backup_dir` + discarded
`logger.record` pattern of link_replace. -/
def logIfBackup (ls : LogState) (clock : Nat) (backupDir : Option Path)
    (args : LogArgs) : LogState × List LogArgs :=
  match backupDir with
  | some _ => ((OperationLog.record ls clock args).fst, [args])
  | none => (ls, [])

/-- engine.rs link_create. -/
def link_create (fs : FS) (ls : LogState) (m : Mapping) (dryRun : Bool) :
    ActionResult :=
  if dryRun then
    ⟨{ base_record m with
       status := .wouldCreate,
       message := some "would create hardlink" }, fs, ls, []⟩
  else
    match ensure_parent_dir fs m.target with
    | .error e => ⟨failRec m e, fs, ls, []⟩
    | .ok fs1 =>
      match create_hard_link_checked fs1 m.source m.target with
      | .error e => ⟨failRec m e, fs1, ls, []⟩
      | .ok fs2 =>
          ⟨{ base_record m with
             status := .created,
             message := some "created hardlink" }, fs2, ls, []⟩

/-- engine.rs link_replace. -/
def link_replace (fs : FS) (ls : LogState) (m : Mapping) (dryRun : Bool)
    (backupDir : Option Path) : ActionResult :=
  if dryRun then
    ⟨{ base_record m with
       status := .wouldReplace,
       message := some "would replace target with hardlink" }, fs, ls, []⟩
  else
    match ensure_parent_dir fs m.target with
    | .error e =>
      let step := logIfBackup ls fs.clock backupDir
        (mkReplaceArgs m "failed" (some e) none none)
      ⟨failRec m e, fs, step.fst, step.snd⟩
    | .ok fs1 =>
      let hashBefore :=
        if backupDir.isSome then (calculate_sha256 fs1 m.target).toOption
        else none
      match remove_existing_target_file fs1 m.target backupDir with
      | .error e =>
        let step := logIfBackup ls fs.clock backupDir
          (mkReplaceArgs m "failed" (some e) hashBefore none)
        ⟨failRec m e, fs1, step.fst, step.snd⟩
      | .ok (outcome, fs2) =>
        match create_hard_link_checked fs2 m.source m.target with
        | .error e =>
          let step := logIfBackup ls fs.clock backupDir
            (mkReplaceArgs m "failed" (some e) hashBefore outcome.backup_path)
          ⟨failRec m e, fs2, step.fst, step.snd⟩
        | .ok fs3 =>
          let step := logIfBackup ls fs.clock backupDir
            (mkReplaceArgs m "success" none hashBefore outcome.backup_path)
          ⟨{ base_record m with
             status := .replaced,
             message := some "replaced target with hardlink" },
           fs3, step.fst, step.snd⟩

/-- engine.rs apply_link. -/
def apply_link (fs : FS) (ls : LogState) (m : Mapping)
    (force onlyMissing dryRun : Bool) (backupDir : Option Path) :
    ActionResult :=
  let current := inspect_mapping fs m
  match current.status with
  | .ok =>
      ⟨{ current with status := .skipped, message := some "already linked" },
       fs, ls, []⟩
  | .missing => link_create fs ls m dryRun
  | .broken =>
      if onlyMissing then
        ⟨{ current with
           status := .skipped,
           message := some "skipped by --only-missing" }, fs, ls, []⟩
      else if !force then
        ⟨{ current with
           status := .error,
           message := some "target exists and differs (use --force)" },
         fs, ls, []⟩
      else link_replace fs ls m dryRun backupDir
  | .conflict =>
      if onlyMissing then
        ⟨{ current with
           status := .skipped,
           message := some "skipped by --only-missing" }, fs, ls, []⟩
      else if !force then
        ⟨{ current with
           status := .error,
           message := some "target exists and differs (use --force)" },
         fs, ls, []⟩
      else link_replace fs ls m dryRun backupDir
  | .error => ⟨current, fs, ls, []⟩
  | _ =>
      ⟨{ current with status := .error, message := some "unexpected state" },
       fs, ls, []⟩

/-- engine.rs apply_repair. -/
def apply_repair (fs : FS) (ls : LogState) (m : Mapping)
    (forceConflict dryRun : Bool) (backupDir : Option Path) : ActionResult :=
  let current := inspect_mapping fs m
  match current.status with
  | .ok =>
      ⟨{ current with status := .skipped, message := some "already healthy" },
       fs, ls, []⟩
  | .missing => link_create fs ls m dryRun
  | .broken => link_replace fs ls m dryRun backupDir
  | .conflict =>
      if forceConflict then link_replace fs ls m dryRun backupDir
      else
        ⟨{ current with
           status := .skipped,
           message := some "conflict skipped (use --force to override)" },
         fs, ls, []⟩
  | .error => ⟨current, fs, ls, []⟩
  | _ =>
      ⟨{ current with status := .error, message := some "unexpected state" },
       fs, ls, []⟩

/-- app.rs link command: process the mappings in order, collecting the
records. -/
def run_link (fs : FS) (ls : LogState) (ms : List Mapping)
    (force onlyMissing dryRun : Bool) (backupDir : Option Path) :
    List Record × FS × LogState :=
  match ms with
  | [] => ([], fs, ls)
  | m :: rest =>
    let r := apply_link fs ls m force onlyMissing dryRun backupDir
    let next := run_link r.fs r.log rest force onlyMissing dryRun backupDir
    (r.record :: next.fst, next.snd)

/- ---------------------------------------------------------------- -/
/- Summary and exit codes (model.rs, app.rs).                        -/
/- ---------------------------------------------------------------- -/

structure Summary where
  total : Nat
  okCount : Nat
  missing : Nat
  broken : Nat
  conflict : Nat
  created : Nat
  replaced : Nat
  would_create : Nat
  would_replace : Nat
  skipped : Nat
  errors : Nat
deriving DecidableEq

def tallyStep (s : Summary) (r : Record) : Summary :=
  match r.status with
  | .ok => { s with okCount := s.okCount + 1 }
  | .missing => { s with missing := s.missing + 1 }
  | .broken => { s with broken := s.broken + 1 }
  | .conflict => { s with conflict := s.conflict + 1 }
  | .created => { s with created := s.created + 1 }
  | .replaced => { s with replaced := s.replaced + 1 }
  | .wouldCreate => { s with would_create := s.would_create + 1 }
  | .wouldReplace => { s with would_replace := s.would_replace + 1 }
  | .skipped => { s with skipped := s.skipped + 1 }
  | .error => { s with errors := s.errors + 1 }

/-- model.rs Summary::from_records. -/
def Summary.from_records (records : List Record) : Summary :=
  records.foldl tallyStep
    ⟨records.length, 0, 0, 0, 0, 0, 0, 0, 0, 0, 0⟩

/-- model.rs Summary::has_inconsistency. -/
def Summary.has_inconsistency (s : Summary) : Bool :=
  decide (0 < s.missing) || decide (0 < s.broken) || decide (0 < s.conflict)

/-- model.rs Summary::has_error. -/
def Summary.has_error (s : Summary) : Bool :=
  decide (0 < s.errors)

/-- app.rs exit_code. -/
def exit_code (s : Summary) (includeInconsistency : Bool) : Nat :=
  if s.has_error then 2
  else if includeInconsistency && s.has_inconsistency then 1
  else 0

inductive Command
  | link
  | verify
  | repair
  | status
  | bootstrap
deriving DecidableEq

/-- The include_inconsistency argument each app.rs command passes to
exit_code at its call site. -/
def includeInconsistencyFlag : Command → Bool
  | .link => false
  | .verify => true
  | .repair => true
  | .status => true
  | .bootstrap => false

/- ---------------------------------------------------------------- -/
/- Concrete states used by witnesses and the counterexample.         -/
/- ---------------------------------------------------------------- -/

def ls0 : LogState := ⟨.absent, false, false, false, false⟩

def mapW : Mapping := ⟨.configFile, "a/s", "a/t"⟩

/-- Source present, target absent. -/
def fsMissing : FS :=
  { entries := [("a", 10), ("a/s", 1)],
    inodes := [(10, ⟨.dir, 0, [], 0⟩), (1, ⟨.regular, 0, [1], 0⟩)],
    unreadable := [], readFails := [], avail := 1000, clock := 111 }

/-- Target is a regular file with link count 2, not link-identical to the
source. -/
def fsBroken : FS :=
  { entries := [("a", 10), ("a/s", 1), ("a/t", 2), ("a/u", 2)],
    inodes := [(10, ⟨.dir, 0, [], 0⟩), (1, ⟨.regular, 0, [1], 0⟩),
               (2, ⟨.regular, 0, [2], 5⟩)],
    unreadable := [], readFails := [], avail := 1000, clock := 111 }

/-- Target is an independent regular file with link count 1. -/
def fsConflict : FS :=
  { entries := [("a", 10), ("a/s", 1), ("a/t", 2)],
    inodes := [(10, ⟨.dir, 0, [], 0⟩), (1, ⟨.regular, 0, [1], 0⟩),
               (2, ⟨.regular, 0, [2], 5⟩)],
    unreadable := [], readFails := [], avail := 1000, clock := 111 }

/-- Like fsBroken, but opening the target for reading fails (its metadata
is still readable). -/
def fsHashFail : FS :=
  { fsBroken with readFails := ["a/t"] }

/-- Like fsBroken, but the backup filesystem has no space left, so the
backup step of a replace must fail after the hash has been captured. -/
def fsNoSpace : FS :=
  { fsBroken with avail := 0 }

/-- Two sources mapped onto the same target path. -/
def fsShared : FS :=
  { entries := [("a", 10), ("a/s1", 1), ("a/s2", 2)],
    inodes := [(10, ⟨.dir, 0, [], 0⟩), (1, ⟨.regular, 0, [1], 0⟩),
               (2, ⟨.regular, 0, [2], 0⟩)],
    unreadable := [], readFails := [], avail := 1000, clock := 7 }

def mShared1 : Mapping := ⟨.configFile, "a/s1", "a/t"⟩

def mShared2 : Mapping := ⟨.configFile, "a/s2", "a/t"⟩

def recsW : List Record :=
  [⟨.configFile, "s", "t", .conflict, none⟩,
   ⟨.configFile, "s", "u", .error, none⟩]

/-- A corrupt operation-log state: the log file exists, is small, and is
unreadable or not valid JSON. -/
def lsCorrupt : LogState := ⟨.corrupt 40, false, false, false, false⟩

/- ---------------------------------------------------------------- -/
/- Generic list lemmas.                                              -/
/- ---------------------------------------------------------------- -/

theorem find?_append_of_some {α : Type} (p : α → Bool) (l1 l2 : List α)
    (a : α) (h : l1.find? p = some a) : (l1 ++ l2).find? p = some a := by
  rw [List.find?_append, h]; rfl

theorem find?_append_of_none {α : Type} (p : α → Bool) (l1 l2 : List α)
    (h : l1.find? p = none) : (l1 ++ l2).find? p = l2.find? p := by
  rw [List.find?_append, h]; rfl

/- ---------------------------------------------------------------- -/
/- C1: the classifier follows the priority order of the spec.        -/
/- ---------------------------------------------------------------- -/

/-- C1: for every mapping, classification returns the first matching
status in the fixed priority order of the specification and no other:
source metadata unreadable (including not found) gives ERROR; target
metadata read failing with not-found gives MISSING; any other target
metadata failure gives ERROR; a non-regular source gives ERROR; a
non-regular target gives CONFLICT; same device and inode gives OK; a
target link count above one gives BROKEN; otherwise CONFLICT. -/
theorem inspect_mapping_priority_order (fs : FS) (m : Mapping) :
    (inspect_mapping fs m).status = classifySpec fs m := by
  unfold inspect_mapping classifySpec
  cases hs : symlink_metadata fs m.source with
  | error e => rfl
  | ok sm =>
    cases ht : symlink_metadata fs m.target with
    | error e => cases e <;> rfl
    | ok tm =>
      by_cases h1 : sm.ftype = FileType.regular
      · by_cases h2 : tm.ftype = FileType.regular
        · by_cases hi : sm.ino = tm.ino
          · by_cases hd : sm.dev = tm.dev
            · simp [h1, h2, hi, hd, same_file]
            · by_cases hn : 1 < tm.nlink <;>
                simp [h1, h2, hi, hd, hn, same_file, hardlink_count]
          · by_cases hn : 1 < tm.nlink <;>
              simp [h1, h2, hi, hn, same_file, hardlink_count]
        · simp [h1, h2]
      · simp [h1]

/- ---------------------------------------------------------------- -/
/- C5: backup retention never touches the generated backup files.    -/
/- ---------------------------------------------------------------- -/

/-- C5 (failing input): a backup directory holding 101 backup files named
exactly as build_backup_path names them (timestamp prefix, original file
name "note.txt") exceeds the default maximum of 100, yet
cleanup_old_backups selects nothing for deletion, because it only
considers files whose extension is "bak" and build_backup_path never
produces that extension.  The retained count therefore stays above the
maximum. -/
theorem cleanup_misses_generated_backups :
    (backupFilesToRemove
        ((List.range 101).map
          (fun k => (build_backup_path "bk" "note.txt" k, k))) 100 = []) ∧
    100 <
      ((List.range 101).map
        (fun k => (build_backup_path "bk" "note.txt" k, k))).length ∧
    extensionOf (build_backup_path "bk" "note.txt" 1700000000) = some "txt" := by
  decide

/-- The pruning path of cleanup_old_backups does fire for files that
happen to carry the "bak" extension: the oldest is removed together with
its sidecar. -/
theorem cleanup_prunes_bak_files :
    backupFilesToRemove [("bk/a.bak", 0), ("bk/b.bak", 1)] 1 =
      ["bk/a.bak", "bk/a.bak.sha256"] := by
  decide

/- ---------------------------------------------------------------- -/
/- C2, C3: the decision table for BROKEN and CONFLICT.               -/
/- ---------------------------------------------------------------- -/

/-- The replace action can only end in REPLACED, WOULD_REPLACE or
ERROR. -/
theorem link_replace_status_cases (fs : FS) (ls : LogState) (m : Mapping)
    (dry : Bool) (bk : Option Path) :
    (link_replace fs ls m dry bk).record.status = Status.replaced ∨
    (link_replace fs ls m dry bk).record.status = Status.wouldReplace ∨
    (link_replace fs ls m dry bk).record.status = Status.error := by
  unfold link_replace
  cases dry with
  | true => simp
  | false =>
    simp only [Bool.false_eq_true, if_false]
    cases h1 : ensure_parent_dir fs m.target with
    | error e => simp [h1, failRec, base_record]
    | ok fs1 =>
      cases h2 : remove_existing_target_file fs1 m.target bk with
      | error e => simp [h1, h2, failRec, base_record]
      | ok pr =>
        obtain ⟨oc, fs2⟩ := pr
        cases h3 : create_hard_link_checked fs2 m.source m.target with
        | error e => simp [h1, h2, h3, failRec, base_record]
        | ok fs3 => simp [h1, h2, h3]

/-- C2: a mapping classified BROKEN is replaced by the repair command
regardless of the force flag (ending in REPLACED, WOULD_REPLACE under
dry-run, or ERROR on failure), while a mapping classified CONFLICT is
replaced by repair only under force and is otherwise SKIPPED with no
state change. -/
theorem repair_broken_replaces_conflict_gated (fs : FS) (ls : LogState)
    (m : Mapping) (force dry : Bool) (bk : Option Path) :
    ((inspect_mapping fs m).status = Status.broken →
      apply_repair fs ls m force dry bk = link_replace fs ls m dry bk ∧
      ((apply_repair fs ls m force dry bk).record.status = Status.replaced ∨
       (apply_repair fs ls m force dry bk).record.status = Status.wouldReplace ∨
       (apply_repair fs ls m force dry bk).record.status = Status.error) ∧
      (dry = true →
        (apply_repair fs ls m force dry bk).record.status = Status.wouldReplace))
    ∧ ((inspect_mapping fs m).status = Status.conflict →
      (force = true →
        apply_repair fs ls m force dry bk = link_replace fs ls m dry bk) ∧
      (force = false →
        (apply_repair fs ls m force dry bk).record.status = Status.skipped ∧
        (apply_repair fs ls m force dry bk).fs = fs ∧
        (apply_repair fs ls m force dry bk).log = ls)) := by
  constructor
  · intro h
    have e1 : apply_repair fs ls m force dry bk = link_replace fs ls m dry bk := by
      unfold apply_repair
      simp only [h]
    refine ⟨e1, ?_, ?_⟩
    · rw [e1]; exact link_replace_status_cases fs ls m dry bk
    · intro hd; subst hd; rw [e1]; unfold link_replace; simp
  · intro h
    constructor
    · intro hforce; subst hforce
      unfold apply_repair
      simp only [h, if_true]
    · intro hforce; subst hforce
      unfold apply_repair
      simp only [h]
      simp

/-- C2 witness: a concrete BROKEN mapping is replaced by repair with the
force flag off. -/
theorem repair_broken_witness :
    apply_repair fsBroken ls0 mapW false false (some "bk") =
      link_replace fsBroken ls0 mapW false (some "bk") :=
  ((repair_broken_replaces_conflict_gated fsBroken ls0 mapW false false
    (some "bk")).1 (by decide)).1

/-- C3: for a mapping classified BROKEN or CONFLICT, the link command is
SKIPPED under only-missing, is an ERROR with no state change (in
particular the target bytes are untouched) without force, and performs
the replace action exactly when forced. -/
theorem link_refuses_broken_conflict_without_force (fs : FS) (ls : LogState)
    (m : Mapping) (dry : Bool) (bk : Option Path)
    (h : (inspect_mapping fs m).status = Status.broken ∨
         (inspect_mapping fs m).status = Status.conflict) :
    ((apply_link fs ls m false true dry bk).record.status = Status.skipped ∧
     (apply_link fs ls m true true dry bk).record.status = Status.skipped ∧
     (apply_link fs ls m false true dry bk).fs = fs ∧
     (apply_link fs ls m true true dry bk).fs = fs)
    ∧ ((apply_link fs ls m false false dry bk).record.status = Status.error ∧
       (apply_link fs ls m false false dry bk).fs = fs ∧
       (apply_link fs ls m false false dry bk).log = ls ∧
       readFileContent (apply_link fs ls m false false dry bk).fs m.target =
         readFileContent fs m.target)
    ∧ (apply_link fs ls m true false dry bk = link_replace fs ls m dry bk) := by
  rcases h with h | h <;>
  · refine ⟨?_, ?_, ?_⟩
    · unfold apply_link; simp only [h]; simp
    · unfold apply_link; simp only [h]; simp
    · unfold apply_link; simp only [h]; simp

/-- C3 witness: a concrete CONFLICT mapping under link without force is an
ERROR and the filesystem (hence the target content) is unchanged. -/
theorem link_conflict_witness :
    (apply_link fsConflict ls0 mapW false false false none).record.status =
        Status.error ∧
    (apply_link fsConflict ls0 mapW false false false none).fs = fsConflict :=
  ⟨((link_refuses_broken_conflict_without_force fsConflict ls0 mapW false none
      (Or.inr (by decide))).2.1).1,
   ((link_refuses_broken_conflict_without_force fsConflict ls0 mapW false none
      (Or.inr (by decide))).2.1).2.1⟩

/- ---------------------------------------------------------------- -/
/- C4: dry-run performs no mutation.                                 -/
/- ---------------------------------------------------------------- -/

theorem link_create_dry (fs : FS) (ls : LogState) (m : Mapping) :
    link_create fs ls m true =
      ⟨{ base_record m with
         status := .wouldCreate,
         message := some "would create hardlink" }, fs, ls, []⟩ := rfl

theorem link_replace_dry (fs : FS) (ls : LogState) (m : Mapping)
    (bk : Option Path) :
    link_replace fs ls m true bk =
      ⟨{ base_record m with
         status := .wouldReplace,
         message := some "would replace target with hardlink" }, fs, ls, []⟩ := rfl

/-- C4: with dry-run set, neither the link nor the repair command mutates
the filesystem or the operation log, for every mapping and every
classified status; and a mapping whose status calls for the create or
replace action reports WOULD_CREATE or WOULD_REPLACE respectively. -/
theorem dry_run_no_mutation (fs : FS) (ls : LogState) (m : Mapping)
    (force om : Bool) (bk : Option Path) :
    ((apply_link fs ls m force om true bk).fs = fs ∧
     (apply_link fs ls m force om true bk).log = ls)
    ∧ ((apply_repair fs ls m force true bk).fs = fs ∧
       (apply_repair fs ls m force true bk).log = ls)
    ∧ ((inspect_mapping fs m).status = Status.missing →
        (apply_link fs ls m force om true bk).record.status = Status.wouldCreate ∧
        (apply_repair fs ls m force true bk).record.status = Status.wouldCreate)
    ∧ (((inspect_mapping fs m).status = Status.broken ∨
        (inspect_mapping fs m).status = Status.conflict) →
        om = false → force = true →
        (apply_link fs ls m force om true bk).record.status = Status.wouldReplace)
    ∧ ((inspect_mapping fs m).status = Status.broken →
        (apply_repair fs ls m force true bk).record.status = Status.wouldReplace)
    ∧ ((inspect_mapping fs m).status = Status.conflict → force = true →
        (apply_repair fs ls m force true bk).record.status = Status.wouldReplace) := by
  refine ⟨?_, ?_, ?_, ?_, ?_, ?_⟩
  · unfold apply_link
    cases h : (inspect_mapping fs m).status <;> simp only [h] <;>
      cases om <;> cases force <;>
        simp [link_create_dry, link_replace_dry]
  · unfold apply_repair
    cases h : (inspect_mapping fs m).status <;> simp only [h] <;>
      cases force <;>
        simp [link_create_dry, link_replace_dry]
  · intro h
    constructor
    · unfold apply_link; simp only [h]; simp [link_create_dry]
    · unfold apply_repair; simp only [h]; simp [link_create_dry]
  · intro h hom hforce
    subst hom; subst hforce
    rcases h with h | h <;>
      (unfold apply_link; simp only [h]; simp [link_replace_dry])
  · intro h
    unfold apply_repair; simp only [h]; simp [link_replace_dry]
  · intro h hforce
    subst hforce
    unfold apply_repair; simp only [h]; simp [link_replace_dry]

/-- C4 witness: on a concrete BROKEN mapping, forced dry-run link reports
WOULD_REPLACE and leaves the state untouched. -/
theorem dry_run_witness :
    (apply_link fsBroken ls0 mapW true false true (some "bk")).fs = fsBroken ∧
    (apply_link fsBroken ls0 mapW true false true (some "bk")).record.status =
      Status.wouldReplace :=
  ⟨(dry_run_no_mutation fsBroken ls0 mapW true false (some "bk")).1.1,
   (dry_run_no_mutation fsBroken ls0 mapW true false
      (some "bk")).2.2.2.1 (Or.inl (by decide)) rfl rfl⟩

/- ---------------------------------------------------------------- -/
/- C7: exit-code policy.                                             -/
/- ---------------------------------------------------------------- -/

theorem foldl_tally_fields (rs : List Record) (s : Summary) :
    ((rs.foldl tallyStep s).errors =
      s.errors + rs.countP (fun r => r.status == Status.error)) ∧
    ((rs.foldl tallyStep s).missing =
      s.missing + rs.countP (fun r => r.status == Status.missing)) ∧
    ((rs.foldl tallyStep s).broken =
      s.broken + rs.countP (fun r => r.status == Status.broken)) ∧
    ((rs.foldl tallyStep s).conflict =
      s.conflict + rs.countP (fun r => r.status == Status.conflict)) := by
  induction rs generalizing s with
  | nil => simp
  | cons r rest ih =>
    simp only [List.foldl_cons, List.countP_cons]
    obtain ⟨ih1, ih2, ih3, ih4⟩ := ih (tallyStep s r)
    rw [ih1, ih2, ih3, ih4]
    cases h : r.status <;> simp [tallyStep, h] <;> omega

theorem includeInconsistencyFlag_eq (cmd : Command) :
    includeInconsistencyFlag cmd =
      (decide (cmd = Command.verify) || decide (cmd = Command.status) ||
       decide (cmd = Command.repair)) := by
  cases cmd <;> rfl

/-- C7: the process exit code derived from a report is 2 exactly when some
record is an ERROR; otherwise 1 when some record counts as MISSING, BROKEN
or CONFLICT and the command is verify, status or repair; otherwise 0 — in
particular the link command never exits 1 for inconsistencies. -/
theorem exit_code_policy (rs : List Record) (cmd : Command) :
    (exit_code (Summary.from_records rs) (includeInconsistencyFlag cmd) =
      if ∃ r ∈ rs, r.status = Status.error then 2
      else if (∃ r ∈ rs, r.status = Status.missing ∨
                r.status = Status.broken ∨ r.status = Status.conflict) ∧
              (cmd = Command.verify ∨ cmd = Command.status ∨
               cmd = Command.repair) then 1
      else 0)
    ∧ exit_code (Summary.from_records rs) (includeInconsistencyFlag Command.link)
        ≠ 1 := by
  obtain ⟨he, hm, hb, hc⟩ :=
    foldl_tally_fields rs ⟨rs.length, 0, 0, 0, 0, 0, 0, 0, 0, 0, 0⟩
  have hfe : (Summary.from_records rs).errors =
      rs.countP (fun r => r.status == Status.error) := by
    unfold Summary.from_records; rw [he]; simp
  have hfm : (Summary.from_records rs).missing =
      rs.countP (fun r => r.status == Status.missing) := by
    unfold Summary.from_records; rw [hm]; simp
  have hfb : (Summary.from_records rs).broken =
      rs.countP (fun r => r.status == Status.broken) := by
    unfold Summary.from_records; rw [hb]; simp
  have hfc : (Summary.from_records rs).conflict =
      rs.countP (fun r => r.status == Status.conflict) := by
    unfold Summary.from_records; rw [hc]; simp
  have herr_iff : (Summary.from_records rs).has_error = true ↔
      ∃ r ∈ rs, r.status = Status.error := by
    unfold Summary.has_error
    rw [hfe]
    simp [List.countP_pos_iff]
  have hinc_iff : (Summary.from_records rs).has_inconsistency = true ↔
      ∃ r ∈ rs, r.status = Status.missing ∨ r.status = Status.broken ∨
        r.status = Status.conflict := by
    unfold Summary.has_inconsistency
    rw [hfm, hfb, hfc]
    simp only [Bool.or_eq_true, decide_eq_true_eq, List.countP_pos_iff,
      beq_iff_eq]
    constructor
    · rintro ((⟨r, hr, h⟩ | ⟨r, hr, h⟩) | ⟨r, hr, h⟩)
      · exact ⟨r, hr, Or.inl h⟩
      · exact ⟨r, hr, Or.inr (Or.inl h)⟩
      · exact ⟨r, hr, Or.inr (Or.inr h)⟩
    · rintro ⟨r, hr, h | h | h⟩
      · exact Or.inl (Or.inl ⟨r, hr, h⟩)
      · exact Or.inl (Or.inr ⟨r, hr, h⟩)
      · exact Or.inr ⟨r, hr, h⟩
  constructor
  · unfold exit_code
    by_cases herr : ∃ r ∈ rs, r.status = Status.error
    · rw [if_pos (herr_iff.mpr herr), if_pos herr]
    · rw [if_neg (fun hh => herr (herr_iff.mp hh)), if_neg herr]
      by_cases hinc : ∃ r ∈ rs, r.status = Status.missing ∨
          r.status = Status.broken ∨ r.status = Status.conflict
      · have hincb : (Summary.from_records rs).has_inconsistency = true :=
          hinc_iff.mpr hinc
        rw [hincb, includeInconsistencyFlag_eq]
        cases cmd <;> simp [hinc]
      · have : (Summary.from_records rs).has_inconsistency = false := by
          cases hb2 : (Summary.from_records rs).has_inconsistency
          · rfl
          · exact absurd (hinc_iff.mp hb2) hinc
        rw [this]
        simp [hinc]
  · unfold exit_code
    by_cases herr : (Summary.from_records rs).has_error = true
    · rw [if_pos herr]; omega
    · rw [if_neg herr]
      simp [includeInconsistencyFlag]

/-- C7 witness: a report with one CONFLICT and one ERROR record exits 2
under verify. -/
theorem exit_code_policy_witness :
    exit_code (Summary.from_records recsW)
      (includeInconsistencyFlag Command.verify) = 2 := by
  rw [(exit_code_policy recsW Command.verify).1]
  decide

/- ---------------------------------------------------------------- -/
/- C10: the log append recovers from a corrupt log file.             -/
/- ---------------------------------------------------------------- -/

/-- C10: appending to the operation log never fails because the existing
log file is unreadable or is not valid JSON: the append starts from an
empty array, so the rewritten log holds exactly the single new entry and
the record call succeeds (given that the rotation and write primitives
themselves do not fail). -/
theorem record_recovers_from_corrupt_log (ls : LogState) (clock : Nat)
    (args : LogArgs) (sz : Nat)
    (h1 : ls.logFile = LogFile.corrupt sz)
    (h2 : ls.removeFails = false)
    (h3 : ls.renameFails = false)
    (h4 : ls.writeFails = false) :
    (OperationLog.record ls clock args).snd = true ∧
    (OperationLog.record ls clock args).fst.logFile =
      LogFile.valid [storedEntry clock args] := by
  obtain ⟨lf, rot, rm, rn, wf⟩ := ls
  simp only at h1 h2 h3 h4
  subst h1; subst h2; subst h3; subst h4
  unfold OperationLog.record logSizeOf
  by_cases hsz : logSizeLimit < sz
  · simp only [hsz, if_true]
    unfold rotate_log rotate_rename
    cases rot <;> simp
  · simp [hsz]

/-- C10 witness: a small corrupt log file is rewritten to exactly the new
entry and the call succeeds. -/
theorem record_corrupt_log_witness :
    (OperationLog.record lsCorrupt 3
        (mkReplaceArgs mapW "success" none none none)).snd = true ∧
    (OperationLog.record lsCorrupt 3
        (mkReplaceArgs mapW "success" none none none)).fst.logFile =
      LogFile.valid [storedEntry 3 (mkReplaceArgs mapW "success" none none none)] :=
  record_recovers_from_corrupt_log lsCorrupt 3
    (mkReplaceArgs mapW "success" none none none) 40 rfl rfl rfl rfl

/- ---------------------------------------------------------------- -/
/- C9: a hash failure does not abort the replace action.             -/
/- ---------------------------------------------------------------- -/

/-- C9: when a backup directory is configured but hashing the existing
target fails, the replace action proceeds rather than returning an ERROR
record: the final status is decided solely by the remove and link steps,
and every operation-log entry it attempts carries a null hash_before. -/
theorem replace_proceeds_when_hash_fails (fs fs1 : FS) (ls : LogState)
    (m : Mapping) (bk : Path) (e : String)
    (hpar : ensure_parent_dir fs m.target = .ok fs1)
    (hhash : calculate_sha256 fs1 m.target = .error e) :
    ((link_replace fs ls m false (some bk)).logCalls.map LogArgs.hash_before
       = [none]) ∧
    (link_replace fs ls m false (some bk)).record.status =
      (match remove_existing_target_file fs1 m.target (some bk) with
       | .error _ => Status.error
       | .ok (_, fs2) =>
         match create_hard_link_checked fs2 m.source m.target with
         | .error _ => Status.error
         | .ok _ => Status.replaced) := by
  have hb : (calculate_sha256 fs1 m.target).toOption = none := by
    rw [hhash]; rfl
  unfold link_replace
  simp only [Bool.false_eq_true, if_false, hpar, Option.isSome_some,
    if_true, hb]
  cases h2 : remove_existing_target_file fs1 m.target (some bk) with
  | error e2 => simp [h2, logIfBackup, mkReplaceArgs, failRec, base_record]
  | ok pr =>
    obtain ⟨oc, fs2⟩ := pr
    cases h3 : create_hard_link_checked fs2 m.source m.target with
    | error e3 =>
        simp [h2, h3, logIfBackup, mkReplaceArgs, failRec, base_record]
    | ok fs3 => simp [h2, h3, logIfBackup, mkReplaceArgs]

/-- C9 witness: on a concrete state whose target cannot be opened for
hashing, the forced replace still succeeds and logs a null hash. -/
theorem replace_hash_fail_witness :
    (link_replace fsHashFail ls0 mapW false (some "bk")).record.status =
      Status.replaced ∧
    (link_replace fsHashFail ls0 mapW false (some "bk")).logCalls.map
      LogArgs.hash_before = [none] := by
  have h := replace_proceeds_when_hash_fails fsHashFail fsHashFail ls0 mapW
    "bk" "failed to open file for hashing a/t" rfl rfl
  refine ⟨?_, h.1⟩
  rw [h.2]
  decide

/- ---------------------------------------------------------------- -/
/- C6: one log entry per attempted replace; log failures harmless.   -/
/- ---------------------------------------------------------------- -/

/-- C6: with a backup directory configured, every non-dry-run replace
attempt makes exactly one logger.record call — with status "success" and
the backup location on full success, and on every failure path with
status "failed", the failing error, and exactly the hash and
backup-location information captured by that point (nothing at the
parent-directory stage, the pre-replace hash at the remove stage, hash
plus backup location at the hardlink stage) — and neither the resulting
Record, the filesystem, nor the attempted entry depends on the log state
(so a failing log write never changes the outcome). -/
theorem link_replace_always_logs_once (fs : FS) (ls ls2 : LogState)
    (m : Mapping) (bk : Path) :
    ((link_replace fs ls m false (some bk)).logCalls.length = 1)
    ∧ ((link_replace fs ls m false (some bk)).record.status = Status.replaced →
        ∃ fs1 oc fs2,
          ensure_parent_dir fs m.target = .ok fs1 ∧
          remove_existing_target_file fs1 m.target (some bk) = .ok (oc, fs2) ∧
          (link_replace fs ls m false (some bk)).logCalls =
            [mkReplaceArgs m "success" none
              ((calculate_sha256 fs1 m.target).toOption) oc.backup_path])
    ∧ ((link_replace fs ls m false (some bk)).record.status = Status.error →
        (∃ e, ensure_parent_dir fs m.target = .error e ∧
          (link_replace fs ls m false (some bk)).logCalls =
            [mkReplaceArgs m "failed" (some e) none none])
        ∨ (∃ fs1 e, ensure_parent_dir fs m.target = .ok fs1 ∧
            remove_existing_target_file fs1 m.target (some bk) = .error e ∧
            (link_replace fs ls m false (some bk)).logCalls =
              [mkReplaceArgs m "failed" (some e)
                ((calculate_sha256 fs1 m.target).toOption) none])
        ∨ (∃ fs1 oc fs2 e, ensure_parent_dir fs m.target = .ok fs1 ∧
            remove_existing_target_file fs1 m.target (some bk) =
              .ok (oc, fs2) ∧
            create_hard_link_checked fs2 m.source m.target = .error e ∧
            (link_replace fs ls m false (some bk)).logCalls =
              [mkReplaceArgs m "failed" (some e)
                ((calculate_sha256 fs1 m.target).toOption) oc.backup_path]))
    ∧ ((link_replace fs ls2 m false (some bk)).record =
        (link_replace fs ls m false (some bk)).record)
    ∧ ((link_replace fs ls2 m false (some bk)).fs =
        (link_replace fs ls m false (some bk)).fs)
    ∧ ((link_replace fs ls2 m false (some bk)).logCalls =
        (link_replace fs ls m false (some bk)).logCalls) := by
  unfold link_replace
  simp only [Bool.false_eq_true, if_false]
  cases h1 : ensure_parent_dir fs m.target with
  | error e =>
      refine ⟨?_, ?_, ?_, ?_, ?_, ?_⟩
      · simp [h1, logIfBackup]
      · simp [h1, logIfBackup, failRec, base_record]
      · intro _
        refine Or.inl ⟨e, ?_, ?_⟩
        rfl
        · simp [h1, logIfBackup]
      · simp [h1, logIfBackup]
      · simp [h1, logIfBackup]
      · simp [h1, logIfBackup]
  | ok fs1 =>
    cases h2 : remove_existing_target_file fs1 m.target (some bk) with
    | error e =>
        refine ⟨?_, ?_, ?_, ?_, ?_, ?_⟩
        · simp [h1, h2, logIfBackup]
        · simp [h1, h2, logIfBackup, failRec, base_record]
        · intro _
          refine Or.inr (Or.inl ⟨fs1, e, ?_, ?_, ?_⟩)
          rfl
          · first | rfl | exact h2
          · simp [h1, h2, logIfBackup]
        · simp [h1, h2, logIfBackup]
        · simp [h1, h2, logIfBackup]
        · simp [h1, h2, logIfBackup]
    | ok pr =>
      obtain ⟨oc, fs2⟩ := pr
      cases h3 : create_hard_link_checked fs2 m.source m.target with
      | error e =>
          refine ⟨?_, ?_, ?_, ?_, ?_, ?_⟩
          · simp [h1, h2, h3, logIfBackup]
          · simp [h1, h2, h3, logIfBackup, failRec, base_record]
          · intro _
            refine Or.inr (Or.inr ⟨fs1, oc, fs2, e, ?_, ?_, ?_, ?_⟩)
            rfl
            · first | rfl | exact h2
            · first | rfl | exact h3
            · simp [h1, h2, h3, logIfBackup]
          · simp [h1, h2, h3, logIfBackup]
          · simp [h1, h2, h3, logIfBackup]
          · simp [h1, h2, h3, logIfBackup]
      | ok fs3 =>
          refine ⟨?_, ?_, ?_, ?_, ?_, ?_⟩
          · simp [h1, h2, h3, logIfBackup]
          · intro _
            refine ⟨fs1, oc, fs2, ?_, ?_, by simp [h1, h2, h3, logIfBackup]⟩
            · rfl
            · first | rfl | exact h2
          · simp [h1, h2, h3, logIfBackup]
          · simp [h1, h2, h3, logIfBackup]
          · simp [h1, h2, h3, logIfBackup]
          · simp [h1, h2, h3, logIfBackup]

/-- C6 witness: on a concrete successful replace the single attempted
entry has status "success", and on a concrete replace that fails at the
backup step (no disk space) the single "failed" entry still carries the
hash captured before the failure. -/
theorem link_replace_logs_once_witness :
    ((link_replace fsBroken ls0 mapW false (some "bk")).logCalls.map
        LogArgs.status = ["success"]) ∧
    ((link_replace fsNoSpace ls0 mapW false (some "bk")).logCalls.map
        LogArgs.status = ["failed"]) ∧
    ((link_replace fsNoSpace ls0 mapW false (some "bk")).logCalls.map
        LogArgs.hash_before = [some (sha256Hex [2])]) := by
  refine ⟨?_, ?_, ?_⟩
  · obtain ⟨fs1, oc, fs2, h1, h2, h3⟩ :=
      (link_replace_always_logs_once fsBroken ls0 ls0 mapW "bk").2.1 (by decide)
    rw [h3]
    rfl
  all_goals
    rcases (link_replace_always_logs_once fsNoSpace ls0 ls0 mapW "bk").2.2.1
        (by decide) with ⟨e, h1, h3⟩ | ⟨fs1, e, h1, h2, h3⟩ |
          ⟨fs1, oc, fs2, e, h1, h2, h3, h4⟩
  · rw [show ensure_parent_dir fsNoSpace mapW.target = .ok fsNoSpace from rfl]
      at h1
    exact absurd h1 (by simp)
  · have hok : ensure_parent_dir fsNoSpace mapW.target = .ok fsNoSpace := rfl
    rw [hok] at h1
    injection h1 with h1e
    subst h1e
    rw [h3]
    rfl
  · have hok : ensure_parent_dir fsNoSpace mapW.target = .ok fsNoSpace := rfl
    rw [hok] at h1
    injection h1 with h1e
    subst h1e
    rw [show remove_existing_target_file fsNoSpace mapW.target (some "bk") =
          .error "insufficient disk space" from rfl] at h2
    exact absurd h2 (by simp)
  · rw [show ensure_parent_dir fsNoSpace mapW.target = .ok fsNoSpace from rfl]
      at h1
    exact absurd h1 (by simp)
  · have hok : ensure_parent_dir fsNoSpace mapW.target = .ok fsNoSpace := rfl
    rw [hok] at h1
    injection h1 with h1e
    subst h1e
    rw [h3]
    rfl
  · have hok : ensure_parent_dir fsNoSpace mapW.target = .ok fsNoSpace := rfl
    rw [hok] at h1
    injection h1 with h1e
    subst h1e
    rw [show remove_existing_target_file fsNoSpace mapW.target (some "bk") =
          .error "insufficient disk space" from rfl] at h2
    exact absurd h2 (by simp)

/- ---------------------------------------------------------------- -/
/- C8: idempotence of the link action.                               -/
/- ---------------------------------------------------------------- -/

theorem symlink_metadata_ok_elim (fs : FS) (p : Path) (md : Metadata)
    (h : symlink_metadata fs p = .ok md) :
    fs.unreadable.contains p = false ∧
    lookupIno fs p = some md.ino ∧
    ∃ d, getInode fs md.ino = some d ∧
      md.ftype = d.ftype ∧ md.dev = d.dev := by
  unfold symlink_metadata at h
  cases hc : fs.unreadable.contains p
  · rw [hc] at h
    simp only [Bool.false_eq_true, if_false] at h
    cases hl : lookupIno fs p with
    | none => simp [hl] at h
    | some i =>
      cases hg : getInode fs i with
      | none => simp [hl, hg] at h
      | some d =>
        simp only [hl, hg] at h
        injection h with h2
        subst h2
        refine ⟨?_, ?_, d, ?_, rfl, rfl⟩
        · rfl
        · rfl
        · first | rfl | exact hg
  · rw [hc] at h
    simp at h

theorem create_hard_link_ok_elim (fs fs2 : FS) (s t : Path)
    (h : create_hard_link_checked fs s t = .ok fs2) :
    ∃ sm, symlink_metadata fs s = .ok sm ∧
      (sm.ftype == FileType.regular) = true ∧
      lookupIno fs t = none ∧
      fs.unreadable.contains t = false ∧
      fs2 = { fs with entries := fs.entries ++ [(t, sm.ino)] } := by
  unfold create_hard_link_checked at h
  cases hs : symlink_metadata fs s with
  | error e => simp [hs] at h
  | ok sm =>
    simp only [hs] at h
    by_cases hreg : (sm.ftype == FileType.regular) = true
    · rw [if_pos hreg] at h
      cases hcsf : check_same_filesystem fs sm t with
      | error e => simp [hcsf] at h
      | ok u =>
        simp only [hcsf] at h
        by_cases hex : ((lookupIno fs t).isSome || fs.unreadable.contains t) = true
        · rw [if_pos hex] at h; simp at h
        · rw [if_neg hex] at h
          simp only [Bool.or_eq_true, not_or, Bool.not_eq_true] at hex
          obtain ⟨hl, hc⟩ := hex
          injection h with h2
          refine ⟨sm, ?_, hreg, ?_, hc, h2.symm⟩
          · rfl
          · cases hlo : lookupIno fs t with
            | none => rfl
            | some i => rw [hlo] at hl; simp at hl
    · rw [if_neg hreg] at h; simp at h

/-- After a successful checked hardlink creation, the mapping from the
same source to the just-created target classifies as OK. -/
theorem hardlink_ok_inspect (fs fs2 : FS) (k : MappingKind) (s t : Path)
    (h : create_hard_link_checked fs s t = .ok fs2) :
    (inspect_mapping fs2 ⟨k, s, t⟩).status = Status.ok := by
  obtain ⟨sm, hs, hreg, hlt, hct, hfs2⟩ := create_hard_link_ok_elim fs fs2 s t h
  obtain ⟨hcs, hls, d, hg, hft, hdv⟩ := symlink_metadata_ok_elim fs s sm hs
  subst hfs2
  have hls2 :
      lookupIno { fs with entries := fs.entries ++ [(t, sm.ino)] } s
        = some sm.ino := by
    unfold lookupIno at hls ⊢
    cases hfind : fs.entries.find? (fun e => e.fst == s) with
    | none => rw [hfind] at hls; simp at hls
    | some a =>
      dsimp only
      rw [find?_append_of_some _ _ _ _ hfind]
      rw [hfind] at hls
      simpa using hls
  have hlt2 :
      lookupIno { fs with entries := fs.entries ++ [(t, sm.ino)] } t
        = some sm.ino := by
    unfold lookupIno at hlt ⊢
    cases hfind : fs.entries.find? (fun e => e.fst == t) with
    | some a => rw [hfind] at hlt; simp at hlt
    | none =>
      dsimp only
      rw [find?_append_of_none _ _ _ hfind]
      simp [List.find?]
  have hmds :
      symlink_metadata { fs with entries := fs.entries ++ [(t, sm.ino)] } s =
        .ok ⟨d.ftype, d.dev, sm.ino,
          nlinkOf { fs with entries := fs.entries ++ [(t, sm.ino)] } sm.ino,
          d.content.length⟩ := by
    unfold symlink_metadata
    rw [show ({ fs with entries := fs.entries ++ [(t, sm.ino)] } : FS).unreadable
          = fs.unreadable from rfl, hcs]
    simp only [Bool.false_eq_true, if_false, hls2]
    rw [show getInode { fs with entries := fs.entries ++ [(t, sm.ino)] } sm.ino
          = getInode fs sm.ino from rfl, hg]
  have hmdt :
      symlink_metadata { fs with entries := fs.entries ++ [(t, sm.ino)] } t =
        .ok ⟨d.ftype, d.dev, sm.ino,
          nlinkOf { fs with entries := fs.entries ++ [(t, sm.ino)] } sm.ino,
          d.content.length⟩ := by
    unfold symlink_metadata
    rw [show ({ fs with entries := fs.entries ++ [(t, sm.ino)] } : FS).unreadable
          = fs.unreadable from rfl, hct]
    simp only [Bool.false_eq_true, if_false, hlt2]
    rw [show getInode { fs with entries := fs.entries ++ [(t, sm.ino)] } sm.ino
          = getInode fs sm.ino from rfl, hg]
  unfold inspect_mapping
  rw [show (Mapping.mk k s t).source = s from rfl,
      show (Mapping.mk k s t).target = t from rfl, hmds, hmdt]
  have hregd : (d.ftype == FileType.regular) = true := by
    rw [hft] at hreg; exact hreg
  simp [hregd, same_file]

/-- C8 (amended): per mapping, when a link application returns CREATED,
REPLACED or SKIPPED, applying link again to the resulting state returns
SKIPPED and leaves the filesystem and log state identical. -/
theorem link_idempotent_per_mapping (fs : FS) (ls : LogState) (m : Mapping)
    (force om : Bool) (bk : Option Path)
    (h : (apply_link fs ls m force om false bk).record.status = Status.created ∨
         (apply_link fs ls m force om false bk).record.status = Status.replaced ∨
         (apply_link fs ls m force om false bk).record.status = Status.skipped) :
    (apply_link (apply_link fs ls m force om false bk).fs
        (apply_link fs ls m force om false bk).log
        m force om false bk).record.status = Status.skipped ∧
    (apply_link (apply_link fs ls m force om false bk).fs
        (apply_link fs ls m force om false bk).log
        m force om false bk).fs = (apply_link fs ls m force om false bk).fs ∧
    (apply_link (apply_link fs ls m force om false bk).fs
        (apply_link fs ls m force om false bk).log
        m force om false bk).log = (apply_link fs ls m force om false bk).log := by
  cases hst : (inspect_mapping fs m).status
  case ok =>
    have e1 : apply_link fs ls m force om false bk =
        ⟨{ inspect_mapping fs m with
           status := Status.skipped, message := some "already linked" },
         fs, ls, []⟩ := by
      unfold apply_link; simp only [hst]
    rw [e1]
    dsimp only
    rw [e1]
    exact ⟨rfl, rfl, rfl⟩
  case missing =>
    have e1 : apply_link fs ls m force om false bk = link_create fs ls m false := by
      unfold apply_link; simp only [hst]
    rw [e1] at h ⊢
    unfold link_create at h ⊢
    simp only [Bool.false_eq_true, if_false] at h ⊢
    cases h1 : ensure_parent_dir fs m.target with
    | error e => simp [h1, failRec, base_record] at h
    | ok fs1 =>
      cases h2 : create_hard_link_checked fs1 m.source m.target with
      | error e => simp [h1, h2, failRec, base_record] at h
      | ok fs2 =>
        simp only [h1, h2]
        have hin : (inspect_mapping fs2 m).status = Status.ok :=
          hardlink_ok_inspect fs1 fs2 m.kind m.source m.target h2
        unfold apply_link
        simp only [hin]
        simp
  case broken =>
    by_cases hom : om = true
    · subst hom
      have e1 : apply_link fs ls m force true false bk =
          ⟨{ inspect_mapping fs m with
             status := Status.skipped,
             message := some "skipped by --only-missing" }, fs, ls, []⟩ := by
        unfold apply_link; simp only [hst]; rfl
      rw [e1]
      dsimp only
      rw [e1]
      exact ⟨rfl, rfl, rfl⟩
    · have hom2 : om = false := by
        cases om
        · rfl
        · exact absurd rfl hom
      subst hom2
      by_cases hf : force = true
      · subst hf
        have e1 : apply_link fs ls m true false false bk =
            link_replace fs ls m false bk := by
          unfold apply_link; simp only [hst]; rfl
        rw [e1] at h ⊢
        unfold link_replace at h ⊢
        simp only [Bool.false_eq_true, if_false] at h ⊢
        cases h1 : ensure_parent_dir fs m.target with
        | error e => simp [h1, failRec, base_record] at h
        | ok fs1 =>
          cases h2 : remove_existing_target_file fs1 m.target bk with
          | error e => simp [h1, h2, failRec, base_record] at h
          | ok pr =>
            obtain ⟨oc, fs2⟩ := pr
            cases h3 : create_hard_link_checked fs2 m.source m.target with
            | error e => simp [h1, h2, h3, failRec, base_record] at h
            | ok fs3 =>
              simp only [h1, h2, h3]
              have hin : (inspect_mapping fs3 m).status = Status.ok :=
                hardlink_ok_inspect fs2 fs3 m.kind m.source m.target h3
              unfold apply_link
              simp only [hin]
              simp
      · have hf2 : force = false := by
          cases force
          · rfl
          · exact absurd rfl hf
        subst hf2
        have e1 : apply_link fs ls m false false false bk =
            ⟨{ inspect_mapping fs m with
               status := Status.error,
               message := some "target exists and differs (use --force)" },
             fs, ls, []⟩ := by
          unfold apply_link; simp only [hst]; rfl
        rw [e1] at h
        simp at h
  case conflict =>
    by_cases hom : om = true
    · subst hom
      have e1 : apply_link fs ls m force true false bk =
          ⟨{ inspect_mapping fs m with
             status := Status.skipped,
             message := some "skipped by --only-missing" }, fs, ls, []⟩ := by
        unfold apply_link; simp only [hst]; rfl
      rw [e1]
      dsimp only
      rw [e1]
      exact ⟨rfl, rfl, rfl⟩
    · have hom2 : om = false := by
        cases om
        · rfl
        · exact absurd rfl hom
      subst hom2
      by_cases hf : force = true
      · subst hf
        have e1 : apply_link fs ls m true false false bk =
            link_replace fs ls m false bk := by
          unfold apply_link; simp only [hst]; rfl
        rw [e1] at h ⊢
        unfold link_replace at h ⊢
        simp only [Bool.false_eq_true, if_false] at h ⊢
        cases h1 : ensure_parent_dir fs m.target with
        | error e => simp [h1, failRec, base_record] at h
        | ok fs1 =>
          cases h2 : remove_existing_target_file fs1 m.target bk with
          | error e => simp [h1, h2, failRec, base_record] at h
          | ok pr =>
            obtain ⟨oc, fs2⟩ := pr
            cases h3 : create_hard_link_checked fs2 m.source m.target with
            | error e => simp [h1, h2, h3, failRec, base_record] at h
            | ok fs3 =>
              simp only [h1, h2, h3]
              have hin : (inspect_mapping fs3 m).status = Status.ok :=
                hardlink_ok_inspect fs2 fs3 m.kind m.source m.target h3
              unfold apply_link
              simp only [hin]
              simp
      · have hf2 : force = false := by
          cases force
          · rfl
          · exact absurd rfl hf
        subst hf2
        have e1 : apply_link fs ls m false false false bk =
            ⟨{ inspect_mapping fs m with
               status := Status.error,
               message := some "target exists and differs (use --force)" },
             fs, ls, []⟩ := by
          unfold apply_link; simp only [hst]; rfl
        rw [e1] at h
        simp at h
  case error =>
    have e1 : apply_link fs ls m force om false bk =
        ⟨inspect_mapping fs m, fs, ls, []⟩ := by
      unfold apply_link; simp only [hst]
    rw [e1] at h
    dsimp only at h
    rw [hst] at h
    simp at h
  case created =>
    have e1 : apply_link fs ls m force om false bk =
        ⟨{ inspect_mapping fs m with
           status := Status.error, message := some "unexpected state" },
         fs, ls, []⟩ := by
      unfold apply_link; simp only [hst]
    rw [e1] at h
    simp at h
  case replaced =>
    have e1 : apply_link fs ls m force om false bk =
        ⟨{ inspect_mapping fs m with
           status := Status.error, message := some "unexpected state" },
         fs, ls, []⟩ := by
      unfold apply_link; simp only [hst]
    rw [e1] at h
    simp at h
  case wouldCreate =>
    have e1 : apply_link fs ls m force om false bk =
        ⟨{ inspect_mapping fs m with
           status := Status.error, message := some "unexpected state" },
         fs, ls, []⟩ := by
      unfold apply_link; simp only [hst]
    rw [e1] at h
    simp at h
  case wouldReplace =>
    have e1 : apply_link fs ls m force om false bk =
        ⟨{ inspect_mapping fs m with
           status := Status.error, message := some "unexpected state" },
         fs, ls, []⟩ := by
      unfold apply_link; simp only [hst]
    rw [e1] at h
    simp at h
  case skipped =>
    have e1 : apply_link fs ls m force om false bk =
        ⟨{ inspect_mapping fs m with
           status := Status.error, message := some "unexpected state" },
         fs, ls, []⟩ := by
      unfold apply_link; simp only [hst]
    rw [e1] at h
    simp at h

/-- C8 witness: a concrete CREATED link, applied a second time, is
SKIPPED with an unchanged state. -/
theorem link_idempotent_witness :
    (apply_link (apply_link fsMissing ls0 mapW false false false none).fs
        (apply_link fsMissing ls0 mapW false false false none).log
        mapW false false false none).record.status = Status.skipped :=
  (link_idempotent_per_mapping fsMissing ls0 mapW false false none
    (Or.inl (by decide))).1

/-- C8 (counterexample): two mappings of one configuration that share a
target path, run under force: the first link run returns the action
statuses CREATED and REPLACED, yet the second run is not SKIPPED — it
replaces again. -/
theorem link_twice_shared_target_not_idempotent :
    ((run_link fsShared ls0 [mShared1, mShared2] true false false none).fst.map
        Record.status = [Status.created, Status.replaced]) ∧
    ¬ ((run_link
          (run_link fsShared ls0 [mShared1, mShared2] true false false
            none).snd.fst
          (run_link fsShared ls0 [mShared1, mShared2] true false false
            none).snd.snd
          [mShared1, mShared2] true false false none).fst.map
        Record.status = [Status.skipped, Status.skipped]) := by
  constructor
  · decide
  · decide

end PromptSync
